import Mathlib

/-!
Verification of the MF_PARTICIPATION pipeline.

Shallow embedding of the three scripts of the repository:
* `bulkblock_datafecthing1.py` — CSV fetcher (`fetch_csv`), date normalization
  and the parquet high-water-mark merge (the body of `run`);
* `MF_Paricipation.py` — live JSON fetcher (`fetch_bulk_block`), the
  dual-counterparty classifier (`is_mutual_fund`, `classify_flow`) and the
  consumer's trade-date filter;
* `MFH_Analysis.py` — the historical-store classifier (`MF_KEYWORDS`,
  `is_mutual_fund`, `classify`).

Dates are modelled as `Option Nat` (a day number; `none` is pandas `NaT`),
quantities and prices as `Nat`.  Python strings are Lean `String`s; all string
computations are written over `String.data` so that concrete instances reduce
inside the kernel.
-/

namespace MFPart

/-! ## Models of library primitives (Python `str`, pandas parsing) -/

/-- Model of Python `str.upper` on one ASCII character. -/
def pyUpperChar (c : Char) : Char :=
  if 'a' ≤ c ∧ c ≤ 'z' then Char.ofNat (c.toNat - 32) else c

/-- Model of Python `str.upper` (`name.upper()` in both classifiers). -/
def pyUpper (s : String) : String := ⟨s.data.map pyUpperChar⟩

/-- Substring containment on character lists: `needle` occurs contiguously in
`hay`.  This is the meaning of Python's `k in name` on strings. -/
def listContains (hay needle : List Char) : Bool :=
  (List.range (hay.length + 1)).any
    (fun i => decide ((hay.drop i).take needle.length = needle))

/-- Model of Python's `in` operator on strings. -/
def strContains (hay needle : String) : Bool := listContains hay.data needle.data

/-- Model of `pd.to_datetime(col, errors="coerce").dt.date`: library code
outside the repository.  A date value is modelled as a decimal day number; any
other text fails to parse and coerces to `none` (pandas `NaT`), which is kept
in the column, not dropped. -/
def toDatetimeCoerce (s : String) : Option Nat :=
  if s.data ≠ [] ∧ s.data.all (fun c => decide ('0' ≤ c ∧ c ≤ '9')) then
    some (s.data.foldl (fun a c => 10 * a + (c.toNat - 48)) 0)
  else none

/-! ## Identity classifier -/

/-- The keyword matching shared by `is_mutual_fund` of `MF_Paricipation.py`
(lines 84–96) and of `MFH_Analysis.py` (lines 87–91): both uppercase the name
and test plain substring containment of each keyword; a non-string input
(`None`, `NaN`) is never institutional. -/
def is_mutual_fund_with (kws : List String) (name : Option String) : Bool :=
  match name with
  | none => false
  | some n => kws.any (fun k => strContains (pyUpper n) k)

/-- The keyword list of `MF_Paricipation.py`, lines 88–93. -/
def keywords : List String :=
  ["MUTUAL FUND", "MF", "TRUSTEE", "AMC",
   "ASSET MANAGEMENT", "SBI", "HDFC", "ICICI",
   "AXIS", "KOTAK", "NIPPON", "DSP",
   "UTI", "MIRAE", "ADITYA", "INVESCO"]

/-- The keyword list of `MFH_Analysis.py`, lines 79–85. -/
def MF_KEYWORDS : List String :=
  ["360 ONE", "ABAKKUS", "ADITYA BIRLA SUN LIFE", "ANGEL ONE",
   "AXIS", "BAJAJ FINSERV", "BANDHAN",
   "BANK OF INDIA", "BARODA BNP PARIBAS", "CANARA ROBECO", "CAPITALMIND",
   "CHOICE", "DSP", "EDELWEISS", "FRANKLIN TEMPLETON", "GROWW", "HDFC",
   "HELIOS", "HSBC", "ICICI PRUDENTIAL", "IDBI", "INVESCO", "JM FINANCIAL",
   "JIO BLACKROCK", "KOTAK", "LIC", "MAHINDRA MANULIFE", "MIRAE ASSET",
   "MOTILAL OSWAL", "N J", "NAVI", "NIPPON INDIA", "OLD BRIDGE",
   "PGIM INDIA", "PPFAS", "QUANT", "QUANTUM", "SAMCO",
   "SBI", "SHRIRAM", "SUNDARAM", "TATA", "TAURUS", "THE WEALTH COMPANY",
   "TRUST", "UNIFI", "UNION", "UTI", "WHITEOAK CAPITAL", "ZERODHA"]

/-- `is_mutual_fund` of `MF_Paricipation.py`. -/
def is_mutual_fund (name : Option String) : Bool := is_mutual_fund_with keywords name

/-- `is_mutual_fund` of `MFH_Analysis.py` (same algorithm, its own list). -/
def is_mutual_fund_hist (name : Option String) : Bool :=
  is_mutual_fund_with MF_KEYWORDS name

/-- The classification values: `"🟢 MF ACCUMULATION"`, `"🔴 MF EXIT"`,
`"⚪ IGNORE"`. -/
inductive Signal where
  | Accumulation
  | Exit
  | Ignore
deriving DecidableEq, Repr

/-- `classify_flow` of `MF_Paricipation.py`, lines 101–110: dual-counterparty
shape, `row.get` of a missing or non-string field modelled as `none`. -/
def classify_flow (clientName sellClientName : Option String) : Signal :=
  if is_mutual_fund clientName = true ∧ is_mutual_fund sellClientName = false then
    Signal.Accumulation
  else if is_mutual_fund sellClientName = true ∧ is_mutual_fund clientName = false then
    Signal.Exit
  else Signal.Ignore

/-- `classify` of `MFH_Analysis.py`, lines 96–104, with the keyword list kept
as a parameter (the spec treats the set as configuration): single-counterparty
shape, the side flag uppercased and compared with BUY and SELL. -/
def classify_with (kws : List String) (clientName : Option String) (buySell : String) :
    Signal :=
  if is_mutual_fund_with kws clientName = true ∧ pyUpper buySell = "BUY" then
    Signal.Accumulation
  else if is_mutual_fund_with kws clientName = true ∧ pyUpper buySell = "SELL" then
    Signal.Exit
  else Signal.Ignore

/-- `classify` as the source ties it to `MF_KEYWORDS`. -/
def classify (clientName : Option String) (buySell : String) : Signal :=
  classify_with MF_KEYWORDS clientName buySell

/-! ## The historical store and the merge of `bulkblock_datafecthing1.py` -/

/-- A raw CSV row as fetched, before date normalization.  The column set
beyond the date is modelled from the spec: the store schema of section 6,
`{tradeDate, symbol, securityName, dealType, client/side fields, quantity,
price}` (the archive feed is single-counterparty). -/
structure RawRow where
  dateStr : String
  symbol : String
  securityName : String
  clientName : String
  buySell : String
  quantity : Nat
  price : Nat
deriving DecidableEq, Repr

/-- A normalized store row: the raw columns, the `Deal Type` tag added by
`fetch_csv` and the parsed `Trade Date` column added by `run` (lines 63–65);
`none` is an unparseable date kept as `NaT`. -/
structure Row where
  tradeDate : Option Nat
  symbol : String
  securityName : String
  clientName : String
  buySell : String
  quantity : Nat
  price : Nat
  dealType : String
deriving DecidableEq, Repr

/-- Lines 63–65 of `run`, for one tagged row: parse the detected date column
into `Trade Date`, keeping every row. -/
def normalizeRow (tagged : RawRow × String) : Row :=
  { tradeDate := toDatetimeCoerce tagged.1.dateStr
    symbol := tagged.1.symbol
    securityName := tagged.1.securityName
    clientName := tagged.1.clientName
    buySell := tagged.1.buySell
    quantity := tagged.1.quantity
    price := tagged.1.price
    dealType := tagged.2 }

/-- Date normalization over the fetched batch. -/
def normalize (batch : List (RawRow × String)) : List Row := batch.map normalizeRow

/-- `df_old["Trade Date"].max()` (line 76): pandas `max` skips `NaT` and is
`NaT` on an all-null or empty column. -/
def maxTradeDate : List Row → Option Nat
  | [] => none
  | r :: rs =>
    match r.tradeDate, maxTradeDate rs with
    | none, m => m
    | some d, none => some d
    | some d, some m => some (max d m)

/-- The high-water-mark test of line 77, `df_new["Trade Date"] >
latest_existing`: any comparison against `NaT`, on either side, is false. -/
def newerThan (hwm : Option Nat) (r : Row) : Bool :=
  match hwm, r.tradeDate with
  | some m, some d => decide (m < d)
  | _, _ => false

/-- `drop_duplicates` keeps the first occurrence of each row; `seen` is the
set of rows already emitted. -/
def dedupFrom {α : Type} [DecidableEq α] (seen : List α) : List α → List α
  | [] => []
  | x :: xs => if x ∈ seen then dedupFrom seen xs else x :: dedupFrom (x :: seen) xs

/-- Model of `df.drop_duplicates()` (line 91): exact full-row duplicates
removed, first occurrence kept. -/
def drop_duplicates {α : Type} [DecidableEq α] (l : List α) : List α := dedupFrom [] l

/-- What a merge invocation did: `noop` is the early `return` of line 81 (the
parquet file is not rewritten), `written s` is `to_parquet` of table `s`. -/
inductive MergeResult where
  | noop
  | written (store : List Row)
deriving DecidableEq, Repr

/-- Lines 70–97 of `run`: `df_old` is the existing master table (`none` when
the parquet file does not exist), `df_new` the normalized incoming batch.
With an existing table the batch is cut down to rows strictly past the
high-water-mark, an empty remainder returns without writing, otherwise the
concatenation is deduplicated and written; with no existing table the whole
batch is deduplicated and written. -/
def runMerge (df_old : Option (List Row)) (df_new : List Row) : MergeResult :=
  match df_old with
  | some old =>
    if (df_new.filter (newerThan (maxTradeDate old))).isEmpty then MergeResult.noop
    else
      MergeResult.written
        (drop_duplicates (old ++ df_new.filter (newerThan (maxTradeDate old))))
  | none => MergeResult.written (drop_duplicates df_new)

/-- The persisted state after a merge invocation: unchanged on `noop`. -/
def storeAfter (df_old : Option (List Row)) (df_new : List Row) : Option (List Row) :=
  match runMerge df_old df_new with
  | MergeResult.noop => df_old
  | MergeResult.written s => some s

/-! ## The CSV fetcher of `bulkblock_datafecthing1.py` -/

/-- The transport outcome of one `requests.get`: a `fault` is a raised
transport exception (timeout, connection error); a `response` carries the
status, whether `r.text.strip()` is empty, and the parsed CSV rows. -/
inductive Transport where
  | fault
  | response (status : Nat) (emptyBody : Bool) (rows : List RawRow)

/-- `fetch_csv` (lines 34–44): `Except.error` is an exception reaching the
caller — `requests.get` is not wrapped in any handler, so a transport fault
propagates; a non-200 status or an empty body returns `None`; otherwise the
rows are tagged with the deal type. -/
def fetch_csv (t : Transport) (deal_type : String) :
    Except String (Option (List (RawRow × String))) :=
  match t with
  | Transport.fault => Except.error "requests exception"
  | Transport.response status emptyBody rows =>
    if status ≠ 200 ∨ emptyBody = true then Except.ok none
    else Except.ok (some (rows.map (fun r => (r, deal_type))))

/-- Lines 48–51 of `run`: the two sources fetched in sequence, `frames`
collecting the non-`None` results.  An exception from either call aborts the
whole fetch. -/
def runFetch (tBulk tBlock : Transport) :
    Except String (List (List (RawRow × String))) :=
  match fetch_csv tBulk "Bulk" with
  | Except.error e => Except.error e
  | Except.ok bulk =>
    match fetch_csv tBlock "Block" with
    | Except.error e => Except.error e
    | Except.ok block => Except.ok (bulk.toList ++ block.toList)

/-! ## The live JSON fetcher and consumer of `MF_Paricipation.py` -/

/-- One row of the live bulk/block-deals API. -/
structure LiveRow where
  tradeDate : String
  symbol : String
  clientName : Option String
  sellClientName : Option String
  quantity : Nat
  price : Nat
deriving DecidableEq, Repr

/-- A row of the concatenated live frame: the raw row, its `Deal Type` tag and
the parsed `Trade Date` column. -/
structure LiveOutRow where
  raw : LiveRow
  dealType : String
  tradeDate : Option Nat
deriving DecidableEq, Repr

/-- A pandas frame: its columns and its rows.  `pd.DataFrame()` has no
columns at all. -/
structure LiveDF where
  columns : List String
  rows : List LiveOutRow
deriving DecidableEq, Repr

/-- The columns of a non-empty live fetch result. -/
def LIVE_COLUMNS : List String :=
  ["tradeDate", "symbol", "clientName", "sellClientName", "quantity", "price",
   "Deal Type", "Trade Date"]

/-- `pd.DataFrame()` of line 70: empty and column-less. -/
def emptyDF : LiveDF := { columns := [], rows := [] }

/-- The transport outcome of one live API `s.get`: `fault` is a raised
transport exception; a `response` carries the status and, when the body
parses as JSON, the `data` array (`none` is a body `r.json()` fails on, such
as an empty body). -/
inductive ApiTransport where
  | fault
  | response (status : Nat) (body : Option (List LiveRow))

/-- One iteration of the loop of `fetch_bulk_block` (lines 56–67): a raised
transport exception propagates; a non-200 status skips the source
(`continue`); on a 200 status `r.json()` is called, raising on an unparseable
body; an empty `data` array also skips the source. -/
def fetch_deal_source (t : ApiTransport) (deal_type : String) :
    Except String (Option (List (LiveRow × String))) :=
  match t with
  | ApiTransport.fault => Except.error "requests exception"
  | ApiTransport.response status body =>
    if status ≠ 200 then Except.ok none
    else
      match body with
      | none => Except.error "json decode error"
      | some data =>
        if data.isEmpty then Except.ok none
        else Except.ok (some (data.map (fun r => (r, deal_type))))

/-- `fetch_bulk_block` (lines 46–79): both sources in sequence; with no frame
at all the explicit empty frame is returned, otherwise the concatenation gets
its `Trade Date` column parsed from `tradeDate`. -/
def fetch_bulk_block (tBulk tBlock : ApiTransport) : Except String LiveDF :=
  match fetch_deal_source tBulk "Bulk" with
  | Except.error e => Except.error e
  | Except.ok bulk =>
    match fetch_deal_source tBlock "Block" with
    | Except.error e => Except.error e
    | Except.ok block =>
      if (bulk.toList ++ block.toList).isEmpty then Except.ok emptyDF
      else
        Except.ok
          { columns := LIVE_COLUMNS
            rows := ((bulk.toList ++ block.toList).flatten).map
              (fun p =>
                { raw := p.1
                  dealType := p.2
                  tradeDate := toDatetimeCoerce p.1.tradeDate }) }

/-- Line 117, `df = df[df["Trade Date"] == selected_date]`: indexing a column
that does not exist raises `KeyError`; comparison with `NaT` is false. -/
def filterTradeDate (df : LiveDF) (selected : Nat) : Except String LiveDF :=
  if "Trade Date" ∈ df.columns then
    Except.ok
      { columns := df.columns
        rows := df.rows.filter (fun r => r.tradeDate = some selected) }
  else Except.error "KeyError"

/-- What the consumer shows for one run. -/
inductive ConsumerOutcome where
  | noDeals
  | shown (n : Nat)
deriving DecidableEq, Repr

/-- Lines 115–123: fetch, filter on the selected date, then branch on
emptiness (`st.warning`/`st.stop` against showing the table).  Any exception
on the way propagates. -/
def consumerRun (tBulk tBlock : ApiTransport) (selected : Nat) :
    Except String ConsumerOutcome :=
  match fetch_bulk_block tBulk tBlock with
  | Except.error e => Except.error e
  | Except.ok df =>
    match filterTradeDate df selected with
    | Except.error e => Except.error e
    | Except.ok filtered =>
      if filtered.rows.isEmpty then Except.ok ConsumerOutcome.noDeals
      else Except.ok (ConsumerOutcome.shown filtered.rows.length)

/-! ## Helper lemmas -/

/-- Membership in `dedupFrom`: kept iff present and not already seen. -/
theorem mem_dedupFrom {α : Type} [DecidableEq α] (l : List α) (a : α) :
    ∀ seen : List α, a ∈ dedupFrom seen l ↔ (a ∈ l ∧ a ∉ seen) := by
  induction l with
  | nil => intro seen; simp [dedupFrom]
  | cons x xs ih =>
    intro seen
    by_cases hx : x ∈ seen
    · rw [dedupFrom, if_pos hx, ih]
      constructor
      · rintro ⟨ha, hs⟩; exact ⟨List.mem_cons_of_mem _ ha, hs⟩
      · rintro ⟨ha, hs⟩
        rcases List.mem_cons.mp ha with h | h
        · exact absurd (h ▸ hx) hs
        · exact ⟨h, hs⟩
    · rw [dedupFrom, if_neg hx]
      constructor
      · intro h
        rcases List.mem_cons.mp h with h | h
        · exact ⟨h ▸ List.mem_cons_self x xs, h ▸ hx⟩
        · rcases (ih _).mp h with ⟨ha, hs⟩
          exact ⟨List.mem_cons_of_mem _ ha,
            fun hc => hs (List.mem_cons_of_mem _ hc)⟩
      · rintro ⟨ha, hs⟩
        by_cases hax : a = x
        · exact hax ▸ List.mem_cons_self x (dedupFrom (x :: seen) xs)
        · have haxs : a ∈ xs := by
            rcases List.mem_cons.mp ha with h | h
            · exact absurd h hax
            · exact h
          refine List.mem_cons_of_mem _ ((ih _).mpr ⟨haxs, ?_⟩)
          intro hc
          rcases List.mem_cons.mp hc with h2 | h2
          · exact hax h2
          · exact hs h2

/-- Deduplication neither adds nor loses rows. -/
theorem mem_drop_duplicates {α : Type} [DecidableEq α] (l : List α) (a : α) :
    a ∈ drop_duplicates l ↔ a ∈ l := by
  rw [drop_duplicates, mem_dedupFrom]
  simp

/-- `dedupFrom` emits no value twice. -/
theorem nodup_dedupFrom {α : Type} [DecidableEq α] (l : List α) :
    ∀ seen : List α, (dedupFrom seen l).Nodup := by
  induction l with
  | nil => intro seen; simp [dedupFrom]
  | cons x xs ih =>
    intro seen
    by_cases hx : x ∈ seen
    · rw [dedupFrom, if_pos hx]; exact ih seen
    · rw [dedupFrom, if_neg hx]
      refine List.nodup_cons.mpr ⟨?_, ih _⟩
      intro hmem
      exact ((mem_dedupFrom _ _ _).mp hmem).2 (List.mem_cons_self x seen)

/-- The deduplicated table has no exact full-row duplicates. -/
theorem nodup_drop_duplicates {α : Type} [DecidableEq α] (l : List α) :
    (drop_duplicates l).Nodup := nodup_dedupFrom l []

/-- Every parsed date of the table is bounded by `maxTradeDate`. -/
theorem maxTradeDate_le (l : List Row) :
    ∀ r ∈ l, ∀ d : Nat, r.tradeDate = some d →
      ∃ m, maxTradeDate l = some m ∧ d ≤ m := by
  induction l with
  | nil => simp
  | cons x xs ih =>
    intro r hr d hd
    rcases List.mem_cons.mp hr with h | h
    · subst h
      cases hmx : maxTradeDate xs with
      | none => exact ⟨d, by rw [maxTradeDate, hd, hmx], le_refl d⟩
      | some m => exact ⟨max d m, by rw [maxTradeDate, hd, hmx], le_max_left d m⟩
    · rcases ih r h d hd with ⟨m, hm, hdm⟩
      cases hx : x.tradeDate with
      | none => exact ⟨m, by rw [maxTradeDate, hx, hm], hdm⟩
      | some d2 =>
        exact ⟨max d2 m, by rw [maxTradeDate, hx, hm],
          le_trans hdm (le_max_right d2 m)⟩

/-- A non-`NaT` maximum is attained by some row of the table. -/
theorem maxTradeDate_mem (l : List Row) :
    ∀ m : Nat, maxTradeDate l = some m → ∃ r, r ∈ l ∧ r.tradeDate = some m := by
  induction l with
  | nil => intro m h; simp [maxTradeDate] at h
  | cons x xs ih =>
    intro m h
    cases hx : x.tradeDate with
    | none =>
      rw [maxTradeDate, hx] at h
      rcases ih m h with ⟨r, hr, hrd⟩
      exact ⟨r, List.mem_cons_of_mem _ hr, hrd⟩
    | some d =>
      cases hmx : maxTradeDate xs with
      | none =>
        rw [maxTradeDate, hx, hmx] at h
        exact ⟨x, List.mem_cons_self x xs, by rw [hx, Option.some_inj.mp h]⟩
      | some m2 =>
        rw [maxTradeDate, hx, hmx] at h
        rcases max_choice d m2 with hc | hc
        · refine ⟨x, List.mem_cons_self x xs, ?_⟩
          rw [hx]
          rw [← Option.some_inj.mp h, hc]
        · rcases ih m2 hmx with ⟨r, hr, hrd⟩
          refine ⟨r, List.mem_cons_of_mem _ hr, ?_⟩
          rw [hrd, ← Option.some_inj.mp h, hc]

/-- A row passing the high-water-mark test has a parsed date strictly past a
non-`NaT` mark. -/
theorem newerThan_true (hwm : Option Nat) (r : Row) (h : newerThan hwm r = true) :
    ∃ m d, hwm = some m ∧ r.tradeDate = some d ∧ m < d := by
  cases hwm with
  | none => simp [newerThan] at h
  | some m =>
    cases hr : r.tradeDate with
    | none => simp [newerThan, hr] at h
    | some d =>
      simp [newerThan, hr] at h
      exact ⟨m, d, rfl, rfl, h⟩

/-- A merge that writes writes exactly the deduplicated concatenation of the
old table and the high-water-mark survivors. -/
theorem runMerge_written_eq (store incoming s : List Row)
    (h : runMerge (some store) incoming = MergeResult.written s) :
    s = drop_duplicates (store ++ incoming.filter (newerThan (maxTradeDate store))) := by
  by_cases hf : (incoming.filter (newerThan (maxTradeDate store))).isEmpty
  · rw [runMerge, if_pos hf] at h; cases h
  · rw [runMerge, if_neg hf] at h
    cases h
    rfl

/-- `pyUpper` fixes a keyword that is already uppercase, and every string
contains itself, so a name equal to a configured keyword is institutional. -/
theorem listContains_self (l : List Char) : listContains l l = true := by
  unfold listContains
  rw [List.any_eq_true]
  refine ⟨0, List.mem_range.mpr (Nat.succ_pos _), ?_⟩
  simp

/-- A keyword of the configured set that uppercasing fixes matches itself. -/
theorem is_mutual_fund_with_self (kws : List String) (k : String)
    (hk : k ∈ kws) (hup : pyUpper k = k) :
    is_mutual_fund_with kws (some k) = true := by
  simp only [is_mutual_fund_with]
  rw [List.any_eq_true]
  exact ⟨k, hk, by rw [hup]; exact listContains_self _⟩

/-! ## Concrete sample data -/

/-- A bulk-deal row dated day 9. -/
def row09 : Row :=
  { tradeDate := some 9
    symbol := "AAA"
    securityName := "AAA INDUSTRIES"
    clientName := "X FUND"
    buySell := "BUY"
    quantity := 100
    price := 50
    dealType := "Bulk" }

/-- The same deal dated day 10. -/
def row10 : Row := { row09 with tradeDate := some 10 }

/-- The same deal dated day 11. -/
def row11 : Row := { row09 with tradeDate := some 11 }

/-- `row11` with only the security name changed: it agrees with `row11` on
every field of the tuple the spec declares unique. -/
def rowB : Row := { row11 with securityName := "AAA INDS LTD" }

/-- A raw row whose date column does not parse. -/
def rawBad : RawRow :=
  { dateStr := "NOT A DATE"
    symbol := "AAA"
    securityName := "AAA INDUSTRIES"
    clientName := "X FUND"
    buySell := "BUY"
    quantity := 100
    price := 50 }

/-- A raw row whose date column parses to day 11. -/
def rawGood : RawRow := { rawBad with dateStr := "11" }

/-- `rawBad` after normalization: its `Trade Date` is `none`. -/
def rowNull : Row := normalizeRow (rawBad, "Bulk")

/-- The tuple the spec's section 3 declares a unique key of the store. -/
def claimKey (r : Row) : Option Nat × String × String × Nat × Nat × String :=
  (r.tradeDate, r.symbol, r.clientName, r.quantity, r.price, r.dealType)

/-! ## Claims -/

/-- C2, counterexample: both keyword sets contain `"UTI"`, and both
`is_mutual_fund` implementations match it inside the longer unrelated token
`"UTILITY"`, so matching is not restricted to whole-word boundaries as the
claim states. -/
theorem C2_boundary_counterexample :
    is_mutual_fund (some "UTILITY CORP") = true
    ∧ is_mutual_fund_hist (some "UTILITY CORP") = true := by
  exact ⟨by decide, by decide⟩

/-- C2, amended: the institutional-identity test is case-insensitive plain
substring containment with no word-boundary restriction: a name exactly equal
to a keyword matches, a name containing a keyword as a sub-token of a longer
word also matches, and a non-string name never matches. -/
theorem C2_substring_matching :
    (∀ k ∈ keywords, is_mutual_fund (some k) = true)
    ∧ (∀ k ∈ MF_KEYWORDS, is_mutual_fund_hist (some k) = true)
    ∧ is_mutual_fund (some "Utility Corp") = true
    ∧ is_mutual_fund none = false
    ∧ is_mutual_fund_hist none = false := by
  refine ⟨?_, ?_, by decide, by decide, by decide⟩
  · have hup : ∀ k ∈ keywords, pyUpper k = k := by decide
    intro k hk
    exact is_mutual_fund_with_self _ _ hk (hup k hk)
  · have hup : ∀ k ∈ MF_KEYWORDS, pyUpper k = k := by decide
    intro k hk
    exact is_mutual_fund_with_self _ _ hk (hup k hk)

/-- C5: in the dual-counterparty shape, `classify_flow` returns Accumulation
iff the buyer is institutional and the seller is not, Exit iff the seller is
institutional and the buyer is not, and Ignore exactly when both or neither
are. -/
theorem C5_classify_flow_cases :
    ∀ clientName sellClientName : Option String,
      (classify_flow clientName sellClientName = Signal.Accumulation ↔
        (is_mutual_fund clientName = true ∧ is_mutual_fund sellClientName = false))
      ∧ (classify_flow clientName sellClientName = Signal.Exit ↔
        (is_mutual_fund sellClientName = true ∧ is_mutual_fund clientName = false))
      ∧ (classify_flow clientName sellClientName = Signal.Ignore ↔
        is_mutual_fund clientName = is_mutual_fund sellClientName) := by
  intro c s
  cases hb : is_mutual_fund c <;> cases hs : is_mutual_fund s <;>
    simp [classify_flow, hb, hs]

/-- C6: in the single-counterparty shape, `classify` returns Accumulation iff
the name is institutional and the side is Buy, Exit iff institutional and
Sell, Ignore otherwise; on keyword set SBI, HDFC the claim's two scenario rows
classify as Accumulation and Ignore. -/
theorem C6_classify_cases :
    (∀ (kws : List String) (clientName : Option String) (buySell : String),
      (classify_with kws clientName buySell = Signal.Accumulation ↔
        (is_mutual_fund_with kws clientName = true ∧ pyUpper buySell = "BUY"))
      ∧ (classify_with kws clientName buySell = Signal.Exit ↔
        (is_mutual_fund_with kws clientName = true ∧ pyUpper buySell = "SELL"))
      ∧ (classify_with kws clientName buySell = Signal.Ignore ↔
        ¬(is_mutual_fund_with kws clientName = true ∧
          (pyUpper buySell = "BUY" ∨ pyUpper buySell = "SELL"))))
    ∧ classify_with ["SBI", "HDFC"] (some "SBI MUTUAL FUND") "Buy" = Signal.Accumulation
    ∧ classify_with ["SBI", "HDFC"] (some "RANDOM LTD") "Sell" = Signal.Ignore := by
  have hBS : ¬ (("BUY" : String) = "SELL") := by decide
  have hSB : ¬ (("SELL" : String) = "BUY") := by decide
  refine ⟨?_, by decide, by decide⟩
  intro kws c b
  by_cases hmf : is_mutual_fund_with kws c = true
  · by_cases hbuy : pyUpper b = "BUY"
    · simp [classify_with, hmf, hbuy, hBS]
    · by_cases hsell : pyUpper b = "SELL"
      · simp [classify_with, hmf, hbuy, hsell, hSB]
      · simp [classify_with, hmf, hbuy, hsell]
  · simp [classify_with, hmf]

/-- C1: a merge against an existing store keeps exactly the old rows plus the
incoming rows strictly past the store's maximum trade date, and merging the
same batch a second time against the resulting store is a no-op leaving that
store unchanged. -/
theorem C1_hwm_gate_idempotent :
    ∀ (old incoming s₁ : List Row),
      storeAfter (some old) incoming = some s₁ →
      (∀ r : Row, r ∈ s₁ ↔
          (r ∈ old ∨ (r ∈ incoming ∧ newerThan (maxTradeDate old) r = true)))
      ∧ runMerge (some s₁) incoming = MergeResult.noop
      ∧ storeAfter (some s₁) incoming = some s₁ := by
  intro old incoming s₁ h
  by_cases hf : (incoming.filter (newerThan (maxTradeDate old))).isEmpty = true
  · have hall : ∀ r ∈ incoming, ¬ newerThan (maxTradeDate old) r = true :=
      List.filter_eq_nil_iff.mp (List.isEmpty_iff.mp hf)
    have hs : old = s₁ := by simpa [storeAfter, runMerge, hf] using h
    subst hs
    refine ⟨?_, by rw [runMerge, if_pos hf], by simp [storeAfter, runMerge, hf]⟩
    intro r
    constructor
    · exact fun hr => Or.inl hr
    · rintro (hr | ⟨hri, hnew⟩)
      · exact hr
      · exact absurd hnew (hall r hri)
  · have hw : runMerge (some old) incoming =
        MergeResult.written
          (drop_duplicates (old ++ incoming.filter (newerThan (maxTradeDate old)))) := by
      rw [runMerge, if_neg hf]
    have hs : s₁ =
        drop_duplicates (old ++ incoming.filter (newerThan (maxTradeDate old))) := by
      rw [storeAfter, hw] at h
      exact (Option.some_inj.mp h).symm
    have hmem : ∀ r : Row, r ∈ s₁ ↔
        (r ∈ old ∨ (r ∈ incoming ∧ newerThan (maxTradeDate old) r = true)) := by
      intro r
      rw [hs, mem_drop_duplicates, List.mem_append, List.mem_filter]
    have hne : incoming.filter (newerThan (maxTradeDate old)) ≠ [] := by
      intro hnil
      exact hf (by rw [hnil]; rfl)
    obtain ⟨x, hx⟩ := List.exists_mem_of_ne_nil _ hne
    obtain ⟨m0, d0, hm0, hd0, hlt0⟩ := newerThan_true _ _ (List.mem_filter.mp hx).2
    have hsecond : (incoming.filter (newerThan (maxTradeDate s₁))).isEmpty = true := by
      rw [List.isEmpty_iff, List.filter_eq_nil_iff]
      intro r hri hnew
      obtain ⟨m1, d, hm1, hd, hlt⟩ := newerThan_true _ _ hnew
      by_cases hp : newerThan (maxTradeDate old) r = true
      · have hrs : r ∈ s₁ := (hmem r).mpr (Or.inr ⟨hri, hp⟩)
        obtain ⟨m1b, hm1b, hle⟩ := maxTradeDate_le s₁ r hrs d hd
        rw [hm1] at hm1b
        have heq : m1 = m1b := Option.some_inj.mp hm1b
        omega
      · have hle0 : d ≤ m0 := by
          rw [hm0] at hp
          simp [newerThan, hd] at hp
          exact hp
        obtain ⟨r0, hr0, hr0d⟩ := maxTradeDate_mem old m0 hm0
        have hr0s : r0 ∈ s₁ := (hmem r0).mpr (Or.inl hr0)
        obtain ⟨m1b, hm1b, hle1⟩ := maxTradeDate_le s₁ r0 hr0s m0 hr0d
        rw [hm1] at hm1b
        have heq : m1 = m1b := Option.some_inj.mp hm1b
        omega
    exact ⟨hmem, by rw [runMerge, if_pos hsecond],
      by simp [storeAfter, runMerge, hsecond]⟩

/-- C1, witness: store with maximum date 10, batch with dates 9 and 11 — the
day-11 row is appended, the day-9 row discarded, and re-merging the batch is
a no-op. -/
theorem C1_witness :
    (∀ r : Row, r ∈ [row10, row11] ↔
        (r ∈ [row10] ∨ (r ∈ [row09, row11] ∧ newerThan (maxTradeDate [row10]) r = true)))
    ∧ runMerge (some [row10, row11]) [row09, row11] = MergeResult.noop
    ∧ storeAfter (some [row10, row11]) [row09, row11] = some [row10, row11] :=
  C1_hwm_gate_idempotent [row10] [row09, row11] [row10, row11] (by decide)

/-- C8: when high-water-mark filtering leaves nothing, the merge returns
without writing and the persisted table is exactly the old one. -/
theorem C8_noop_not_rewritten :
    ∀ (store incoming : List Row),
      (incoming.filter (newerThan (maxTradeDate store))).isEmpty = true →
      runMerge (some store) incoming = MergeResult.noop
      ∧ storeAfter (some store) incoming = some store := by
  intro store incoming hf
  exact ⟨by rw [runMerge, if_pos hf], by simp [storeAfter, runMerge, hf]⟩

/-- C8, witness: a batch dated entirely at or before the store's maximum date
is a no-op. -/
theorem C8_witness :
    runMerge (some [row10]) [row09] = MergeResult.noop
    ∧ storeAfter (some [row10]) [row09] = some [row10] :=
  C8_noop_not_rewritten [row10] [row09] (by decide)

/-- C3, counterexample: a raw row whose date fails parsing survives
normalization with a null `Trade Date` and, on a first run (no existing
store), is persisted — normalization does not drop it. -/
theorem C3_counterexample :
    rowNull ∈ normalize [(rawBad, "Bulk")]
    ∧ rowNull.tradeDate = none
    ∧ storeAfter none (normalize [(rawBad, "Bulk")]) = some [rowNull] := by decide

/-- C3, amended: normalization keeps unparseable dates as nulls; a null-dated
record is excluded only by the strict high-water-mark comparison, so whenever
an existing store is present every null-dated row of the merged result was
already in the store — but on a first run null-dated rows are persisted. -/
theorem C3_null_dates_blocked_by_hwm :
    ∀ (store incoming s : List Row),
      storeAfter (some store) incoming = some s →
      ∀ r : Row, r ∈ s → r.tradeDate = none → r ∈ store := by
  intro store incoming s h r hrs hnone
  by_cases hf : (incoming.filter (newerThan (maxTradeDate store))).isEmpty = true
  · have hs : store = s := by simpa [storeAfter, runMerge, hf] using h
    exact hs ▸ hrs
  · have hw : runMerge (some store) incoming =
        MergeResult.written
          (drop_duplicates (store ++ incoming.filter (newerThan (maxTradeDate store)))) := by
      rw [runMerge, if_neg hf]
    have hs : s =
        drop_duplicates (store ++ incoming.filter (newerThan (maxTradeDate store))) := by
      rw [storeAfter, hw] at h
      exact (Option.some_inj.mp h).symm
    rw [hs, mem_drop_duplicates, List.mem_append] at hrs
    rcases hrs with h1 | h2
    · exact h1
    · exfalso
      obtain ⟨m, d, _, hd, _⟩ := newerThan_true _ _ (List.mem_filter.mp h2).2
      rw [hnone] at hd
      cases hd

/-- C3, witness: a store whose only row is null-dated has a `NaT` maximum, so
the whole batch is filtered away and the null row of the result is the store's
own. -/
theorem C3_witness : rowNull ∈ ([rowNull] : List Row) :=
  C3_null_dates_blocked_by_hwm [rowNull] [row11] [rowNull]
    (by decide) rowNull (by decide) (by decide)

/-- C7, counterexample: two distinct rows that differ only in `securityName`
share the claim's `(tradeDate, symbol, clientName, quantity, price, dealType)`
tuple and both survive the merge, so that tuple is not a unique key of the
store. -/
theorem C7_counterexample :
    storeAfter (some [row10]) [row11, rowB] = some [row10, row11, rowB]
    ∧ row11 ≠ rowB
    ∧ claimKey row11 = claimKey rowB := by decide

/-- C7, amended: what the merge guarantees is full-row uniqueness — after any
merge that writes, the store holds no two identical rows (exact full-row
duplicates from overlapping fetch windows are discarded); rows differing in a
field outside the claimed tuple, such as `securityName`, may still share that
tuple, and a no-op merge rewrites nothing. -/
theorem C7_full_row_unique :
    ∀ (df_old : Option (List Row)) (incoming s : List Row),
      runMerge df_old incoming = MergeResult.written s → s.Nodup := by
  intro df_old incoming s h
  cases df_old with
  | none =>
    rw [runMerge] at h
    cases h
    exact nodup_drop_duplicates _
  | some old =>
    rw [runMerge_written_eq old incoming s h]
    exact nodup_drop_duplicates _

/-- C7, witness: merging a batch with an exact duplicate writes the row once. -/
theorem C7_witness : ([row10, row11] : List Row).Nodup :=
  C7_full_row_unique (some [row10]) [row11, row11] [row10, row11] (by decide)

/-- C10: when the filtered batch is non-empty, deduplication runs over the
entire concatenated table — the result is duplicate-free and holds exactly the
old rows and the filtered new rows; concretely, a store persisted with
pre-existing exact duplicates is rewritten with them collapsed, so its row
count decreases. -/
theorem C10_dedup_whole_table :
    (∀ (store incoming s : List Row),
        runMerge (some store) incoming = MergeResult.written s →
        s.Nodup
        ∧ (∀ r : Row, r ∈ s ↔
            (r ∈ store ∨ (r ∈ incoming ∧ newerThan (maxTradeDate store) r = true))))
    ∧ runMerge (some [row10, row10, row10]) [row11] =
        MergeResult.written [row10, row11]
    ∧ ¬ ([row10, row10, row10] : List Row).Nodup
    ∧ ([row10, row11] : List Row).length < ([row10, row10, row10] : List Row).length := by
  refine ⟨?_, by decide, by decide, by decide⟩
  intro store incoming s h
  have hs := runMerge_written_eq store incoming s h
  constructor
  · rw [hs]
    exact nodup_drop_duplicates _
  · intro r
    rw [hs, mem_drop_duplicates, List.mem_append, List.mem_filter]

/-- C4, counterexample: `requests.get` is not wrapped in any handler, so a
transport fault in one feed raises to the fetcher's caller and aborts the
whole fetch even though the other feed responds — feed-level failure is not
merely a removal of that source. -/
theorem C4_fault_aborts_fetch :
    fetch_csv Transport.fault "Bulk" = Except.error "requests exception"
    ∧ runFetch Transport.fault (Transport.response 200 false [rawGood]) =
        Except.error "requests exception" :=
  ⟨rfl, rfl⟩

/-- C4, amended: failures expressed in a response are absorbed per-source — a
non-success status or an empty body makes `fetch_csv` return `None` and a pair
of responses can never abort the whole fetch, and the live fetcher likewise
skips a non-success status — but a raised transport exception propagates (and
in the live fetcher a 200-status body that JSON decoding rejects raises as
well). -/
theorem C4_responses_absorbed :
    ∀ (status : Nat) (emptyBody : Bool) (rows : List RawRow) (deal_type : String)
      (status₂ : Nat) (emptyBody₂ : Bool) (rows₂ : List RawRow)
      (body : Option (List LiveRow)),
      (¬(status = 200 ∧ emptyBody = false) →
        fetch_csv (Transport.response status emptyBody rows) deal_type = Except.ok none)
      ∧ (∃ v, fetch_csv (Transport.response status emptyBody rows) deal_type = Except.ok v)
      ∧ (∃ frames,
          runFetch (Transport.response status emptyBody rows)
            (Transport.response status₂ emptyBody₂ rows₂) = Except.ok frames)
      ∧ (status ≠ 200 →
          fetch_deal_source (ApiTransport.response status body) deal_type = Except.ok none)
      ∧ fetch_deal_source (ApiTransport.response 200 none) deal_type =
          Except.error "json decode error" := by
  intro status emptyBody rows deal_type status₂ emptyBody₂ rows₂ body
  have hok : ∀ (st : Nat) (eb : Bool) (rs : List RawRow) (dt : String),
      ∃ v, fetch_csv (Transport.response st eb rs) dt = Except.ok v := by
    intro st eb rs dt
    by_cases hcond : st ≠ 200 ∨ eb = true
    · exact ⟨none, by rw [fetch_csv, if_pos hcond]⟩
    · exact ⟨some (rs.map (fun r => (r, dt))), by rw [fetch_csv, if_neg hcond]⟩
  refine ⟨?_, hok status emptyBody rows deal_type, ?_, ?_, ?_⟩
  · intro hno
    have hcond : status ≠ 200 ∨ emptyBody = true := by
      by_cases hstat : status = 200
      · cases hb : emptyBody
        · exact absurd ⟨hstat, hb⟩ hno
        · exact Or.inr rfl
      · exact Or.inl hstat
    rw [fetch_csv, if_pos hcond]
  · obtain ⟨v₁, hv₁⟩ := hok status emptyBody rows "Bulk"
    obtain ⟨v₂, hv₂⟩ := hok status₂ emptyBody₂ rows₂ "Block"
    exact ⟨v₁.toList ++ v₂.toList, by rw [runFetch, hv₁, hv₂]⟩
  · intro hst
    rw [fetch_deal_source.eq_def]
    simp [hst]
  · rfl

/-- C9: when every live source fails in an absorbed way, `fetch_bulk_block`
returns the explicit empty, column-less frame, and the consumer's immediately
following `df[df["Trade Date"] == selected_date]` raises a lookup error
instead of reaching the no-deals branch. -/
theorem C9_all_sources_failed_keyerror :
    ∀ (tBulk tBlock : ApiTransport) (selected : Nat),
      fetch_deal_source tBulk "Bulk" = Except.ok none →
      fetch_deal_source tBlock "Block" = Except.ok none →
      fetch_bulk_block tBulk tBlock = Except.ok emptyDF
      ∧ consumerRun tBulk tBlock selected = Except.error "KeyError" := by
  intro tBulk tBlock selected h₁ h₂
  have hfetch : fetch_bulk_block tBulk tBlock = Except.ok emptyDF := by
    rw [fetch_bulk_block, h₁, h₂]
    rfl
  refine ⟨hfetch, ?_⟩
  rw [consumerRun, hfetch]
  rfl

/-- C9, witness: both sources blocked with non-success statuses. -/
theorem C9_witness :
    fetch_bulk_block (ApiTransport.response 403 none) (ApiTransport.response 500 none) =
        Except.ok emptyDF
    ∧ consumerRun (ApiTransport.response 403 none) (ApiTransport.response 500 none) 11 =
        Except.error "KeyError" :=
  C9_all_sources_failed_keyerror (ApiTransport.response 403 none)
    (ApiTransport.response 500 none) 11 rfl rfl

end MFPart
